import Mathlib

/-
Verification of the r-cat session relay engine (src/net/tcp.rs, src/net/udp.rs).

The Rust code is embedded shallowly:
- Byte payloads are lists of naturals; a stdin read or a socket receive is an
  element of an explicit event list fed to the model.
- The tokio interleaving of the two UDP-listener tasks (which share the
  last_peer mutex) is modelled by an explicit schedule: a list of booleans,
  true meaning the receive task performs its next loop iteration, false the
  send task.  One loop iteration (one lock acquisition plus the following
  send or write) is one atomic step, matching the granularity at which the
  claims are stated.
- tokio time.timeout dur fut is modelled by comparing dur with the number of
  ticks the raced future needs: the future wins exactly when ticks ≤ dur.
- anyhow error values are modelled by the inductive NetError, one constructor
  per anyhow construction site in the source, so that distinguishability of
  error classes is constructor inequality.
-/

namespace RCat

/-- IP address, either v4 or v6, as distinguished by SocketAddr.is_ipv4 in
udp.rs line 31. -/
inductive IpAddr where
  | v4 (a b c d : Nat)
  | v6 (segs : List Nat)
deriving DecidableEq

/-- A socket address: IP address plus port (std::net::SocketAddr). -/
structure SocketAddr where
  ip : IpAddr
  port : Nat
deriving DecidableEq

/-- Model of std SocketAddr::is_ipv4, used at udp.rs line 31. -/
def SocketAddr.is_ipv4 (s : SocketAddr) : Bool :=
  match s.ip with
  | .v4 _ _ _ _ => true
  | .v6 _ => false

/-- The host argument handed to a client entry point, by its written form:
ip is a numeric IP literal written so that appending a colon and the port
gives a valid socket-address string — a dotted IPv4 literal, or an IPv6
literal already enclosed in brackets; v6Bare is a bare IPv6 literal without
brackets; name is a hostname, not a numeric literal. -/
inductive Host where
  | ip (addr : IpAddr)
  | v6Bare (segs : List Nat)
  | name (s : String)
deriving DecidableEq

/-- Whether the host argument is a hostname (not a numeric IP literal). -/
def Host.isName : Host → Bool
  | .ip _ => false
  | .v6Bare _ => false
  | .name _ => true

/-- Model of Rust str::parse::<SocketAddr> applied to the string built by
format of host, a colon and port (udp.rs lines 25-28).  The parser accepts a
dotted IPv4 literal followed by the port and a bracketed IPv6 literal
followed by the port; a bare IPv6 literal yields an unbracketed string of
the shape segs:port, which is not a valid socket address and fails, exactly
as a hostname does. -/
def parseSocketAddr : Host → Nat → Option SocketAddr
  | .ip a, port => some { ip := a, port := port }
  | .v6Bare _, _ => none
  | .name _, _ => none

/-- One result of an AsyncReadExt::read call against local input (or, for the
TCP remote-to-local direction, against the remote read half): data c models
Ok(n) with the n read bytes (data [] is Ok(0), end of input), ioErr models
Err(_). -/
inductive StdinRead where
  | data (chunk : List Nat)
  | ioErr
deriving DecidableEq

/-- One result of a UdpSocket::recv_from call: a datagram with its source
address and payload, or an I/O error. -/
inductive RecvEvent where
  | dgram (src : SocketAddr) (payload : List Nat)
  | ioErr
deriving DecidableEq

/-- The anyhow error values the two modules build, one constructor per
construction site: invalid remote address (udp.rs line 28), a bind failure
propagated by the question-mark operator (udp.rs lines 37 and 111, tcp.rs
line 89), connect error and connect timed out (tcp.rs lines 29-30), accept
failed and accept timed out (tcp.rs lines 95-96). -/
inductive NetError where
  | invalidRemoteAddr (host : Host) (port : Nat)
  | bindFailed (msg : String)
  | connectFailed (msg : String)
  | connectTimedOut (dur : Nat)
  | acceptFailed (msg : String)
  | acceptTimedOut (dur : Nat)
deriving DecidableEq

/- ----------------------------------------------------------------- -/
/- UDP client relay tasks (udp.rs lines 47-78)                        -/
/- ----------------------------------------------------------------- -/

/-- Send task of udp::client (udp.rs lines 49-62): the payload of each
send_to call, in order.  Each read giving Ok(n) with n > 0 produces one
send_to of exactly the n read bytes; Ok(0) and Err(_) break the loop. -/
def udpSendChunks : List StdinRead → List (List Nat)
  | [] => []
  | .data [] :: _ => []
  | .data (c :: cs) :: rest => (c :: cs) :: udpSendChunks rest
  | .ioErr :: _ => []

/-- Receive task of udp::client (udp.rs lines 64-78): the payload of each
stdout write_all (each followed by a flush), in order.  Each received
datagram produces one write of exactly its payload; Err(_) breaks. -/
def udpClientRecvWrites : List RecvEvent → List (List Nat)
  | [] => []
  | .dgram _ p :: rest => p :: udpClientRecvWrites rest
  | .ioErr :: _ => []

/-- Spec side, for comparison: the reads of local input that yield N > 0
bytes, each to become exactly one datagram of exactly those N bytes, stopping
at end of input or a read error. -/
def specReadChunks : List StdinRead → List (List Nat)
  | [] => []
  | .data [] :: _ => []
  | .data (c :: cs) :: rest => (c :: cs) :: specReadChunks rest
  | .ioErr :: _ => []

/-- Spec side, for comparison: the payloads of the received datagrams, each
to become exactly one write of its own payload, stopping at a receive
error. -/
def specRecvPayloads : List RecvEvent → List (List Nat)
  | [] => []
  | .dgram _ p :: rest => p :: specRecvPayloads rest
  | .ioErr :: _ => []

/-- Send task of udp::client with the result of each send_to call made
explicit (true for Ok, false for Err): the code discards that result with a
let underscore binding (udp.rs line 57), so each attempt is recorded with
its outcome and the loop continues either way; only a read of 0 bytes or a
read error ends the loop.  An exhausted outcome list means the remaining
sends succeed. -/
def udpSendLoop : List StdinRead → List Bool → List (List Nat × Bool)
  | [], _ => []
  | .data [] :: _, _ => []
  | .ioErr :: _, _ => []
  | .data (c :: cs) :: rest, ok :: oks => ((c :: cs), ok) :: udpSendLoop rest oks
  | .data (c :: cs) :: rest, [] => ((c :: cs), true) :: udpSendLoop rest []

/-- Receive task of udp::client with the result of each stdout write_all and
flush made explicit (true for Ok, false for Err): the code discards both
results with let underscore bindings (udp.rs lines 72-73), so each received
payload is recorded with its write outcome and the loop continues either
way; only a receive error ends the loop.  The udp::listen receive task
(udp.rs lines 133-134) discards its write results identically. -/
def udpRecvLoop : List RecvEvent → List Bool → List (List Nat × Bool)
  | [], _ => []
  | .ioErr :: _, _ => []
  | .dgram _ p :: rest, ok :: oks => (p, ok) :: udpRecvLoop rest oks
  | .dgram _ p :: rest, [] => (p, true) :: udpRecvLoop rest []

/- ----------------------------------------------------------------- -/
/- UDP listener relay (udp.rs lines 105-186)                          -/
/- ----------------------------------------------------------------- -/

/-- Observable events of the udp::listen relay: recvd records the sender as
last peer (udp.rs lines 129-132), wrote is the stdout write_all plus flush of
a received payload (lines 133-134), sent is a send_to to the snapshot peer
(line 154), dropped is a chunk discarded because no peer is recorded yet
(line 156). -/
inductive LEvent where
  | recvd (src : SocketAddr) (payload : List Nat)
  | wrote (payload : List Nat)
  | sent (dst : SocketAddr) (payload : List Nat)
  | dropped (payload : List Nat)
deriving DecidableEq

/-- Whether an event is a send_to call. -/
def isSentEv : LEvent → Bool
  | .sent _ _ => true
  | _ => false

/-- State of the udp::listen relay: the shared last_peer cell (udp.rs line
117), the receive events and stdin reads not yet consumed, whether each task
has left its loop, and the trace of observable events so far. -/
structure LState where
  lastPeer : Option SocketAddr
  pendingRecv : List RecvEvent
  pendingStdin : List StdinRead
  recvDone : Bool
  sendDone : Bool
  trace : List LEvent
deriving DecidableEq

/-- One iteration of the receive task loop (udp.rs lines 125-138): on a
datagram, lock and record the sender as last peer, then write the payload to
stdout and flush; on a receive error, break.  With nothing pending the
recv_from call blocks and the state is unchanged. -/
def recvStep (s : LState) : LState :=
  if s.recvDone then s
  else
    match s.pendingRecv with
    | [] => s
    | .ioErr :: rest => { s with recvDone := true, pendingRecv := rest }
    | .dgram src p :: rest =>
        { s with lastPeer := some src, pendingRecv := rest,
                 trace := s.trace ++ [.recvd src p, .wrote p] }

/-- One iteration of the send task loop (udp.rs lines 147-161): on a read of
n > 0 bytes, snapshot the current peer under the lock; if none has ever been
recorded, drop the chunk, otherwise send_to exactly those bytes to the
snapshot address; on Ok(0) or a read error, break.  With nothing pending the
read call blocks and the state is unchanged. -/
def sendStep (s : LState) : LState :=
  if s.sendDone then s
  else
    match s.pendingStdin with
    | [] => s
    | .ioErr :: rest => { s with sendDone := true, pendingStdin := rest }
    | .data [] :: rest => { s with sendDone := true, pendingStdin := rest }
    | .data (c :: cs) :: rest =>
        match s.lastPeer with
        | none => { s with pendingStdin := rest, trace := s.trace ++ [.dropped (c :: cs)] }
        | some p => { s with pendingStdin := rest, trace := s.trace ++ [.sent p (c :: cs)] }

/-- Run the two udp::listen tasks under an explicit interleaving: true steps
the receive task, false the send task.  A schedule that ends early models the
tasks being abandoned at session teardown. -/
def listenRun : List Bool → LState → LState
  | [], s => s
  | b :: rest, s => listenRun rest (if b then recvStep s else sendStep s)

/-- Initial relay state right after the bind at udp.rs line 111: no peer
recorded, nothing consumed, both loops live, empty trace. -/
def listenInit (recvs : List RecvEvent) (reads : List StdinRead) : LState :=
  { lastPeer := none, pendingRecv := recvs, pendingStdin := reads,
    recvDone := false, sendDone := false, trace := [] }

/-- The peer recorded by the most recent recvd event of a trace, starting
from a given earlier value. -/
def peerAfter : Option SocketAddr → List LEvent → Option SocketAddr
  | a, [] => a
  | _, .recvd src _ :: rest => peerAfter (some src) rest
  | a, .wrote _ :: rest => peerAfter a rest
  | a, .sent _ _ :: rest => peerAfter a rest
  | a, .dropped _ :: rest => peerAfter a rest

/-- Trace check for the peer-tracking discipline: every sent event goes to
the peer recorded by the most recent preceding recvd event, and a chunk is
dropped only while no peer has ever been recorded.  The first argument is
the peer recorded before the trace starts. -/
def sentOk : Option SocketAddr → List LEvent → Bool
  | _, [] => true
  | _, .recvd src _ :: rest => sentOk (some src) rest
  | a, .wrote _ :: rest => sentOk a rest
  | a, .sent dst _ :: rest => decide (a = some dst) && sentOk a rest
  | a, .dropped _ :: rest => decide (a = none) && sentOk a rest

/- ----------------------------------------------------------------- -/
/- TCP relay tasks (tcp.rs lines 40-58 and 107-121)                   -/
/- ----------------------------------------------------------------- -/

/-- Observable events of one TCP directional task. -/
inductive TcpEvent where
  | wroteRemote (chunk : List Nat)
  | shutdownWrite
  | closeRead
  | wroteLocal (chunk : List Nat)
  | flushLocal
deriving DecidableEq

/-- Model of tokio::io::copy from a chunked reader: the chunks written to the
destination, in order; Ok(0) ends the copy, a read error makes copy return
Err after having written the earlier chunks. -/
def copyChunks : List StdinRead → List (List Nat)
  | [] => []
  | .data [] :: _ => []
  | .data (c :: cs) :: rest => (c :: cs) :: copyChunks rest
  | .ioErr :: _ => []

/-- Model of tokio::io::copy with the result of each destination write made
explicit (true for Ok, false for Err): unlike the UDP loops, io::copy
propagates a failed write — it stops and returns Err at the first write
whose outcome is false, so nothing past a failed write is copied.  An
exhausted outcome list means the remaining writes succeed. -/
def copyLoop : List StdinRead → List Bool → List (List Nat)
  | [], _ => []
  | .data [] :: _, _ => []
  | .ioErr :: _, _ => []
  | .data _ :: _, false :: _ => []
  | .data (c :: cs) :: rest, true :: oks => (c :: cs) :: copyLoop rest oks
  | .data (c :: cs) :: rest, [] => (c :: cs) :: copyLoop rest []

/-- Local-to-remote task of tcp::client (tcp.rs lines 46-51) and tcp::listen
(lines 111-115): io::copy from stdin into the remote write half, then
writer.shutdown — the graceful half-close — whatever copy returned.  The
task never touches the remote read half. -/
def tcpWriteTaskEvents (reads : List StdinRead) : List TcpEvent :=
  (copyChunks reads).map (fun c => .wroteRemote c) ++ [.shutdownWrite]

/-- Remote-to-local task of tcp::client (tcp.rs lines 54-58) and tcp::listen
(lines 117-121): io::copy from the remote read half into stdout, then a final
stdout flush. -/
def tcpReadTaskEvents (reads : List StdinRead) : List TcpEvent :=
  (copyChunks reads).map (fun c => .wroteLocal c) ++ [.flushLocal]

/- ----------------------------------------------------------------- -/
/- Entry points                                                       -/
/- ----------------------------------------------------------------- -/

/-- Environment of one tcp::client run: how many ticks the connect future
needs and its result once complete, the stdin and remote-read chunk
sequences, and how many ticks the join of the two copy tasks needs. -/
structure TcpClientWorld where
  connectTicks : Nat
  connectResult : Except String Unit
  stdinReads : List StdinRead
  remoteReads : List StdinRead
  joinTicks : Nat

/-- Environment of one tcp::listen run: the bind result, how many ticks the
accept future needs and its result (the peer address), the stdin and
remote-read chunk sequences, and the join ticks. -/
structure TcpListenWorld where
  bindResult : Except String Unit
  acceptTicks : Nat
  acceptResult : Except String SocketAddr
  stdinReads : List StdinRead
  remoteReads : List StdinRead
  joinTicks : Nat

/-- What one tcp::client or tcp::listen run did: its returned result, how
many times the acquisition step was attempted, the duration the acquisition
race was bounded by (none when no timeout wrapper was used), whether the
copy phase was reached, the duration the copy-phase race was bounded by,
whether that race elapsed, and the events of the two directional tasks. -/
structure TcpRun where
  result : Except NetError Unit
  resolvedName : Bool
  acquireAttempts : Nat
  acquireRaceDur : Option Nat
  sessionRan : Bool
  sessionRaceDur : Option Nat
  sessionTimedOut : Bool
  writeEvents : List TcpEvent
  readEvents : List TcpEvent

/-- tcp::client (tcp.rs lines 14-82).  The host and port are formatted into
one string and handed to TcpStream::connect, whose argument implements
ToSocketAddrs: per its documented contract a hostname string is resolved by
the platform resolver inside the connect call, so resolvedName records
whether the connect attempt performed name resolution of the host argument.
If a timeout is configured the connect future is raced against it (lines
26-31); on success the two copy tasks run and their join is raced against
the same timeout value (lines 60-79); the function returns Ok both when the
join finishes and when that race elapses. -/
def tcpClient (host : Host) (_port : Nat) (timeout : Option Nat)
    (w : TcpClientWorld) : TcpRun :=
  let acq : Except NetError Unit :=
    match timeout with
    | some dur =>
        if w.connectTicks ≤ dur then
          match w.connectResult with
          | .ok _ => .ok ()
          | .error e => .error (.connectFailed e)
        else .error (.connectTimedOut dur)
    | none =>
        match w.connectResult with
        | .ok _ => .ok ()
        | .error e => .error (.connectFailed e)
  match acq with
  | .error e =>
      { result := .error e, resolvedName := host.isName, acquireAttempts := 1,
        acquireRaceDur := timeout, sessionRan := false, sessionRaceDur := none,
        sessionTimedOut := false, writeEvents := [], readEvents := [] }
  | .ok _ =>
      { result := .ok (), resolvedName := host.isName, acquireAttempts := 1,
        acquireRaceDur := timeout, sessionRan := true, sessionRaceDur := timeout,
        sessionTimedOut := (match timeout with
          | some dur => decide (dur < w.joinTicks)
          | none => false),
        writeEvents := tcpWriteTaskEvents w.stdinReads,
        readEvents := tcpReadTaskEvents w.remoteReads }

/-- tcp::listen (tcp.rs lines 84-145).  Bind on 0.0.0.0 at the given port
(errors propagate), then accept exactly one connection, racing the accept
future against the configured timeout if any (lines 92-100); on success the
two copy tasks run and their join is raced against the same timeout value
(lines 123-142); the function returns Ok both when the join finishes and
when that race elapses.  No name resolution is involved: the listener never
sees a host argument. -/
def tcpListen (timeout : Option Nat) (w : TcpListenWorld) : TcpRun :=
  match w.bindResult with
  | .error e =>
      { result := .error (.bindFailed e), resolvedName := false,
        acquireAttempts := 0, acquireRaceDur := none, sessionRan := false,
        sessionRaceDur := none, sessionTimedOut := false,
        writeEvents := [], readEvents := [] }
  | .ok _ =>
      let acq : Except NetError Unit :=
        match timeout with
        | some dur =>
            if w.acceptTicks ≤ dur then
              match w.acceptResult with
              | .ok _ => .ok ()
              | .error e => .error (.acceptFailed e)
            else .error (.acceptTimedOut dur)
        | none =>
            match w.acceptResult with
            | .ok _ => .ok ()
            | .error e => .error (.acceptFailed e)
      match acq with
      | .error e =>
          { result := .error e, resolvedName := false, acquireAttempts := 1,
            acquireRaceDur := timeout, sessionRan := false,
            sessionRaceDur := none, sessionTimedOut := false,
            writeEvents := [], readEvents := [] }
      | .ok _ =>
          { result := .ok (), resolvedName := false, acquireAttempts := 1,
            acquireRaceDur := timeout, sessionRan := true,
            sessionRaceDur := timeout,
            sessionTimedOut := (match timeout with
              | some dur => decide (dur < w.joinTicks)
              | none => false),
            writeEvents := tcpWriteTaskEvents w.stdinReads,
            readEvents := tcpReadTaskEvents w.remoteReads }

/-- Environment of one udp::client run: the bind result, the stdin reads,
the receive events, and how many ticks the join of the two tasks needs. -/
structure UdpClientWorld where
  bindResult : Except String Unit
  stdinReads : List StdinRead
  recvEvents : List RecvEvent
  joinTicks : Nat

/-- What one udp::client run did: its returned result, the wildcard address
handed to UdpSocket::bind (none when the run failed before binding), the
send_to calls with their destination, the stdout writes, and whether the
session race elapsed. -/
structure UdpClientRun where
  result : Except NetError Unit
  bindAddr : Option String
  sent : List (SocketAddr × List Nat)
  wrote : List (List Nat)
  sessionTimedOut : Bool

/-- udp::client (udp.rs lines 19-103).  First parse "host:port" as a socket
address, returning the invalid-remote-address error before any socket is
bound when the host is not a numeric IP literal (lines 25-28); then bind a
wildcard socket of the family matching the remote (lines 31-37, errors
propagate); then run the send task (each positive stdin read becomes one
send_to of exactly those bytes to the fixed remote address) and the receive
task (each received datagram becomes one stdout write of its payload,
flushed), racing their join against the configured timeout if any (lines
81-100); the function returns Ok both when the join finishes and when the
race elapses. -/
def udpClient (host : Host) (port : Nat) (timeout : Option Nat)
    (w : UdpClientWorld) : UdpClientRun :=
  match parseSocketAddr host port with
  | none =>
      { result := .error (.invalidRemoteAddr host port), bindAddr := none,
        sent := [], wrote := [], sessionTimedOut := false }
  | some remoteAddr =>
      let bindTo : String := if remoteAddr.is_ipv4 then "0.0.0.0:0" else "[::]:0"
      match w.bindResult with
      | .error e =>
          { result := .error (.bindFailed e), bindAddr := some bindTo,
            sent := [], wrote := [], sessionTimedOut := false }
      | .ok _ =>
          { result := .ok (), bindAddr := some bindTo,
            sent := (udpSendChunks w.stdinReads).map (fun c => (remoteAddr, c)),
            wrote := udpClientRecvWrites w.recvEvents,
            sessionTimedOut := (match timeout with
              | some dur => decide (dur < w.joinTicks)
              | none => false) }

/-- Environment of one udp::listen run: the bind result, the interleaving
schedule of the two tasks, the receive events, the stdin reads, and how many
ticks the join of the two tasks needs. -/
structure UdpListenWorld where
  bindResult : Except String Unit
  sched : List Bool
  recvEvents : List RecvEvent
  stdinReads : List StdinRead
  joinTicks : Nat

/-- What one udp::listen run did: its returned result, the final relay state
(none when the bind failed), and whether the session race elapsed. -/
structure UdpListenRun where
  result : Except NetError Unit
  final : Option LState
  sessionTimedOut : Bool

/-- udp::listen (udp.rs lines 105-186).  Bind on 0.0.0.0 at the given port
(errors propagate), then run the receive and send tasks over the shared
last_peer cell under the given interleaving, racing their join against the
configured timeout if any (lines 164-183); the function returns Ok both when
the join finishes and when the race elapses. -/
def udpListen (timeout : Option Nat) (w : UdpListenWorld) : UdpListenRun :=
  match w.bindResult with
  | .error e =>
      { result := .error (.bindFailed e), final := none,
        sessionTimedOut := false }
  | .ok _ =>
      { result := .ok (),
        final := some (listenRun w.sched (listenInit w.recvEvents w.stdinReads)),
        sessionTimedOut := (match timeout with
          | some dur => decide (dur < w.joinTicks)
          | none => false) }

/- ----------------------------------------------------------------- -/
/- Helper lemmas                                                      -/
/- ----------------------------------------------------------------- -/

theorem peerAfter_append (t1 t2 : List LEvent) :
    ∀ a, peerAfter a (t1 ++ t2) = peerAfter (peerAfter a t1) t2 := by
  induction t1 with
  | nil => intro a; rfl
  | cons e rest ih => intro a; cases e <;> simp [peerAfter, ih]

theorem sentOk_append (t1 t2 : List LEvent) :
    ∀ a, sentOk a (t1 ++ t2) = (sentOk a t1 && sentOk (peerAfter a t1) t2) := by
  induction t1 with
  | nil => intro a; rfl
  | cons e rest ih =>
    intro a
    cases e <;> simp [sentOk, peerAfter, ih, Bool.and_assoc]

/-- Peer-tracking invariant of a udp::listen relay state: the shared
last_peer cell holds exactly the sender recorded by the most recent recvd
event, and the trace respects the send discipline. -/
def LInv (s : LState) : Prop :=
  s.lastPeer = peerAfter none s.trace ∧ sentOk none s.trace = true

theorem recvStep_inv (s : LState) (h : LInv s) : LInv (recvStep s) := by
  obtain ⟨lp, pr, ps, rd, sd, tr⟩ := s
  obtain ⟨h1, h2⟩ := h
  cases rd
  case true => exact ⟨h1, h2⟩
  case false =>
    cases pr with
    | nil => exact ⟨h1, h2⟩
    | cons e rest =>
      cases e with
      | ioErr => exact ⟨h1, h2⟩
      | dgram src p =>
        constructor
        · show some src = peerAfter none (tr ++ [.recvd src p, .wrote p])
          simp [peerAfter_append, peerAfter]
        · show sentOk none (tr ++ [.recvd src p, .wrote p]) = true
          have h2' : sentOk none tr = true := h2
          simp [sentOk_append, h2', sentOk]

theorem sendStep_inv (s : LState) (h : LInv s) : LInv (sendStep s) := by
  obtain ⟨lp, pr, ps, rd, sd, tr⟩ := s
  obtain ⟨h1, h2⟩ := h
  cases sd
  case true => exact ⟨h1, h2⟩
  case false =>
    cases ps with
    | nil => exact ⟨h1, h2⟩
    | cons r rest =>
      cases r with
      | ioErr => exact ⟨h1, h2⟩
      | data c =>
        cases c with
        | nil => exact ⟨h1, h2⟩
        | cons b bs =>
          cases lp with
          | none =>
            have h1' : (none : Option SocketAddr) = peerAfter none tr := h1
            have h2' : sentOk none tr = true := h2
            constructor
            · show (none : Option SocketAddr) = peerAfter none (tr ++ [.dropped (b :: bs)])
              simp [peerAfter_append, peerAfter, ← h1']
            · show sentOk none (tr ++ [.dropped (b :: bs)]) = true
              simp [sentOk_append, h2', sentOk, ← h1']
          | some p =>
            have h1' : (some p : Option SocketAddr) = peerAfter none tr := h1
            have h2' : sentOk none tr = true := h2
            constructor
            · show (some p : Option SocketAddr) = peerAfter none (tr ++ [.sent p (b :: bs)])
              simp [peerAfter_append, peerAfter, ← h1']
            · show sentOk none (tr ++ [.sent p (b :: bs)]) = true
              simp [sentOk_append, h2', sentOk, ← h1']

theorem listenRun_inv (sched : List Bool) (s : LState) (h : LInv s) :
    LInv (listenRun sched s) := by
  induction sched generalizing s with
  | nil => exact h
  | cons b rest ih =>
    cases b
    case false => exact ih _ (sendStep_inv s h)
    case true => exact ih _ (recvStep_inv s h)

/-- Invariant of a udp::listen run in which no datagram is ever received:
nothing pending on the receive side, no peer recorded, no send_to calls. -/
def NoPeerInv (s : LState) : Prop :=
  s.pendingRecv = [] ∧ s.lastPeer = none ∧ s.trace.countP isSentEv = 0

theorem recvStep_nopeer (s : LState) (h : NoPeerInv s) : NoPeerInv (recvStep s) := by
  obtain ⟨h1, h2, h3⟩ := h
  unfold recvStep
  rw [h1]
  by_cases hd : s.recvDone <;> simp [hd] <;> exact ⟨h1, h2, h3⟩

theorem sendStep_nopeer (s : LState) (h : NoPeerInv s) : NoPeerInv (sendStep s) := by
  obtain ⟨lp, pr, ps, rd, sd, tr⟩ := s
  obtain ⟨h1, h2, h3⟩ := h
  have h2' : lp = none := h2
  subst h2'
  cases sd
  case true => exact ⟨h1, h2, h3⟩
  case false =>
    cases ps with
    | nil => exact ⟨h1, h2, h3⟩
    | cons r rest =>
      cases r with
      | ioErr => exact ⟨h1, h2, h3⟩
      | data c =>
        cases c with
        | nil => exact ⟨h1, h2, h3⟩
        | cons b bs =>
          refine ⟨h1, h2, ?_⟩
          show (tr ++ [LEvent.dropped (b :: bs)]).countP isSentEv = 0
          have h3' : tr.countP isSentEv = 0 := h3
          simp [List.countP_append, h3', isSentEv]

theorem listenRun_nopeer (sched : List Bool) (s : LState) (h : NoPeerInv s) :
    NoPeerInv (listenRun sched s) := by
  induction sched generalizing s with
  | nil => exact h
  | cons b rest ih =>
    cases b
    case false => exact ih _ (sendStep_nopeer s h)
    case true => exact ih _ (recvStep_nopeer s h)

/- ----------------------------------------------------------------- -/
/- Claim theorems                                                     -/
/- ----------------------------------------------------------------- -/

/-- C1: for the UDP listener, a chunk of n > 0 bytes read from local input
while no datagram has ever been received is silently dropped: the send-task
iteration appends only a dropped event, emits no send_to call, neither errors
nor leaves its loop, and moves on to the next chunk; moreover a whole run in
which no datagram ever arrives performs no send_to call at all and never
records a peer, under every interleaving. -/
theorem c1_udp_listen_drop_without_peer
    (pr : List RecvEvent) (reads rest : List StdinRead) (rd : Bool)
    (tr : List LEvent) (b : Nat) (bs : List Nat) (sched : List Bool) :
    sendStep ⟨none, pr, .data (b :: bs) :: rest, rd, false, tr⟩
      = ⟨none, pr, rest, rd, false, tr ++ [.dropped (b :: bs)]⟩
    ∧ (listenRun sched (listenInit [] reads)).trace.countP isSentEv = 0
    ∧ (listenRun sched (listenInit [] reads)).lastPeer = none := by
  refine ⟨rfl, ?_, ?_⟩
  · exact (listenRun_nopeer sched (listenInit [] reads) ⟨rfl, rfl, rfl⟩).2.2
  · exact (listenRun_nopeer sched (listenInit [] reads) ⟨rfl, rfl, rfl⟩).2.1

/-- C2: for the UDP listener, a successful receive records the sender as the
current peer, the recvd event strictly preceding the wrote event of the
payload in the trace, and in every run, under every interleaving, the shared
cell holds exactly the sender of the most recent receive while every send_to
is addressed to exactly that sender — so after a receive from a new peer B
every subsequent chunk is sent to B and never to the earlier peer A. -/
theorem c2_udp_listen_peer_tracking
    (lp : Option SocketAddr) (src : SocketAddr) (p : List Nat)
    (pr : List RecvEvent) (reads : List StdinRead) (sd : Bool) (tr : List LEvent)
    (sched : List Bool) (recvs : List RecvEvent) (reads2 : List StdinRead) :
    recvStep ⟨lp, .dgram src p :: pr, reads, false, sd, tr⟩
      = ⟨some src, pr, reads, false, sd, tr ++ [.recvd src p, .wrote p]⟩
    ∧ (listenRun sched (listenInit recvs reads2)).lastPeer
        = peerAfter none (listenRun sched (listenInit recvs reads2)).trace
    ∧ sentOk none (listenRun sched (listenInit recvs reads2)).trace = true := by
  refine ⟨rfl, ?_, ?_⟩
  · exact (listenRun_inv sched (listenInit recvs reads2) ⟨rfl, rfl⟩).1
  · exact (listenRun_inv sched (listenInit recvs reads2) ⟨rfl, rfl⟩).2

/-- C5 counterexample: in udp::listen a local-input read of 3 bytes performed
before any datagram has been received yields no send_to call at all — the
chunk is dropped — refuting, for the udp::listen role included in the claim,
that every read of N > 0 bytes results in exactly one sent datagram. -/
theorem c5_cex_listen_read_without_send :
    (listenRun [false] (listenInit []
        [.data [104, 105, 33]])).trace = [.dropped [104, 105, 33]]
    ∧ ¬ (listenRun [false] (listenInit []
        [.data [104, 105, 33]])).trace.countP isSentEv = 1 := by
  exact ⟨rfl, by decide⟩

/-- C5 amended: datagram boundaries are preserved in both UDP roles, with
the udp::listen send side qualified by peer availability: in udp::client
every local-input read of n > 0 bytes becomes exactly one send_to of exactly
those bytes, in order and never merged, and every received datagram becomes
exactly one local write of exactly its payload; in udp::listen a receive
iteration writes exactly the received payload once, and a send iteration
emits exactly one send_to carrying exactly the read bytes when a peer is
recorded, and none otherwise. -/
theorem c5_datagram_boundaries_amended
    (rs : List StdinRead) (evs : List RecvEvent)
    (lp : Option SocketAddr) (src q0 : SocketAddr) (p : List Nat)
    (pr : List RecvEvent) (reads rest : List StdinRead) (rd sd : Bool)
    (tr : List LEvent) (b : Nat) (bs : List Nat) :
    udpSendChunks rs = specReadChunks rs
    ∧ udpClientRecvWrites evs = specRecvPayloads evs
    ∧ recvStep ⟨lp, .dgram src p :: pr, reads, false, sd, tr⟩
        = ⟨some src, pr, reads, false, sd, tr ++ [.recvd src p, .wrote p]⟩
    ∧ sendStep ⟨some q0, pr, .data (b :: bs) :: rest, rd, false, tr⟩
        = ⟨some q0, pr, rest, rd, false, tr ++ [.sent q0 (b :: bs)]⟩
    ∧ sendStep ⟨none, pr, .data (b :: bs) :: rest, rd, false, tr⟩
        = ⟨none, pr, rest, rd, false, tr ++ [.dropped (b :: bs)]⟩ := by
  refine ⟨?_, ?_, rfl, rfl, rfl⟩
  · induction rs with
    | nil => rfl
    | cons r rest2 ih =>
      cases r with
      | ioErr => rfl
      | data c =>
        cases c with
        | nil => rfl
        | cons x xs => simp [udpSendChunks, specReadChunks, ih]
  · induction evs with
    | nil => rfl
    | cons e rest2 ih =>
      cases e with
      | ioErr => rfl
      | dgram src2 q => simp [udpClientRecvWrites, specRecvPayloads, ih]

/-- C3: for each of the four entry points with a session timeout configured
and the acquisition successful, the timeout firing during the data-transfer
phase (join needing dur + k + 1 ticks against a bound of dur) is not an
error: the result is Ok, exactly as when both tasks finish naturally (join
needing 0 ticks). -/
theorem c3_session_timeout_success
    (h : Host) (pn dur k : Nat) (rs rr rs2 rr2 rs3 rs4 : List StdinRead)
    (peer : SocketAddr) (a : IpAddr) (evs evs2 : List RecvEvent)
    (sched : List Bool) :
    (tcpClient h pn (some dur) ⟨0, .ok (), rs, rr, dur + k + 1⟩).result = .ok ()
    ∧ (tcpClient h pn (some dur) ⟨0, .ok (), rs, rr, dur + k + 1⟩).sessionTimedOut = true
    ∧ (tcpClient h pn (some dur) ⟨0, .ok (), rs, rr, 0⟩).result = .ok ()
    ∧ (tcpClient h pn (some dur) ⟨0, .ok (), rs, rr, 0⟩).sessionTimedOut = false
    ∧ (tcpListen (some dur) ⟨.ok (), 0, .ok peer, rs2, rr2, dur + k + 1⟩).result = .ok ()
    ∧ (tcpListen (some dur) ⟨.ok (), 0, .ok peer, rs2, rr2, dur + k + 1⟩).sessionTimedOut = true
    ∧ (tcpListen (some dur) ⟨.ok (), 0, .ok peer, rs2, rr2, 0⟩).result = .ok ()
    ∧ (tcpListen (some dur) ⟨.ok (), 0, .ok peer, rs2, rr2, 0⟩).sessionTimedOut = false
    ∧ (udpClient (.ip a) pn (some dur) ⟨.ok (), rs3, evs, dur + k + 1⟩).result = .ok ()
    ∧ (udpClient (.ip a) pn (some dur) ⟨.ok (), rs3, evs, dur + k + 1⟩).sessionTimedOut = true
    ∧ (udpClient (.ip a) pn (some dur) ⟨.ok (), rs3, evs, 0⟩).result = .ok ()
    ∧ (udpClient (.ip a) pn (some dur) ⟨.ok (), rs3, evs, 0⟩).sessionTimedOut = false
    ∧ (udpListen (some dur) ⟨.ok (), sched, evs2, rs4, dur + k + 1⟩).result = .ok ()
    ∧ (udpListen (some dur) ⟨.ok (), sched, evs2, rs4, dur + k + 1⟩).sessionTimedOut = true
    ∧ (udpListen (some dur) ⟨.ok (), sched, evs2, rs4, 0⟩).result = .ok ()
    ∧ (udpListen (some dur) ⟨.ok (), sched, evs2, rs4, 0⟩).sessionTimedOut = false := by
  refine ⟨?_, ?_, ?_, ?_, ?_, ?_, ?_, ?_, ?_, ?_, ?_, ?_, ?_, ?_, ?_, ?_⟩ <;>
    simp [tcpClient, tcpListen, udpClient, udpListen, parseSocketAddr, Nat.zero_le] <;>
    omega

/-- C4: when a connect or accept timeout of dur is configured and the
connect/accept future needs dur + k + 1 ticks, the entry point returns the
dedicated timed-out error — a constructor distinct from every connect or
accept failure error, so diagnosable as timed out rather than refused — the
relay phase is never reached, and the acquisition was attempted exactly
once, with no retry. -/
theorem c4_acquire_timeout_distinct
    (h : Host) (pn dur k jt jt2 : Nat) (cr : Except String Unit)
    (ar : Except String SocketAddr) (rs rr rs2 rr2 : List StdinRead)
    (m : String) :
    (tcpClient h pn (some dur) ⟨dur + k + 1, cr, rs, rr, jt⟩).result
      = .error (.connectTimedOut dur)
    ∧ (tcpClient h pn (some dur) ⟨dur + k + 1, cr, rs, rr, jt⟩).sessionRan = false
    ∧ (tcpClient h pn (some dur) ⟨dur + k + 1, cr, rs, rr, jt⟩).acquireAttempts = 1
    ∧ (tcpListen (some dur) ⟨.ok (), dur + k + 1, ar, rs2, rr2, jt2⟩).result
      = .error (.acceptTimedOut dur)
    ∧ (tcpListen (some dur) ⟨.ok (), dur + k + 1, ar, rs2, rr2, jt2⟩).sessionRan = false
    ∧ (tcpListen (some dur) ⟨.ok (), dur + k + 1, ar, rs2, rr2, jt2⟩).acquireAttempts = 1
    ∧ NetError.connectTimedOut dur ≠ .connectFailed m
    ∧ NetError.acceptTimedOut dur ≠ .acceptFailed m := by
  have hle : ¬ (dur + k + 1 ≤ dur) := by omega
  refine ⟨?_, ?_, ?_, ?_, ?_, ?_, ?_, ?_⟩ <;>
    simp [tcpClient, tcpListen, hle]

/-- C6: in both tcp::client and tcp::listen, once local input is exhausted
the local-to-remote task performs the graceful half-close: its events are
exactly the chunk writes followed by one final shutdown of the remote write
half, and neither directional task ever closes the remote read half, so the
remote-to-local direction keeps delivering. -/
theorem c6_tcp_half_close
    (h : Host) (pn : Nat) (t : Option Nat) (rs rr rs2 rr2 : List StdinRead)
    (jt jt2 : Nat) (peer : SocketAddr) :
    (tcpClient h pn t ⟨0, .ok (), rs, rr, jt⟩).writeEvents
      = (copyChunks rs).map (fun c => .wroteRemote c) ++ [.shutdownWrite]
    ∧ TcpEvent.closeRead ∉ (tcpClient h pn t ⟨0, .ok (), rs, rr, jt⟩).writeEvents
    ∧ TcpEvent.closeRead ∉ (tcpClient h pn t ⟨0, .ok (), rs, rr, jt⟩).readEvents
    ∧ (tcpListen t ⟨.ok (), 0, .ok peer, rs2, rr2, jt2⟩).writeEvents
      = (copyChunks rs2).map (fun c => .wroteRemote c) ++ [.shutdownWrite]
    ∧ TcpEvent.closeRead ∉ (tcpListen t ⟨.ok (), 0, .ok peer, rs2, rr2, jt2⟩).writeEvents
    ∧ TcpEvent.closeRead ∉ (tcpListen t ⟨.ok (), 0, .ok peer, rs2, rr2, jt2⟩).readEvents := by
  refine ⟨?_, ?_, ?_, ?_, ?_, ?_⟩ <;> cases t <;>
    simp [tcpClient, tcpListen, tcpWriteTaskEvents, tcpReadTaskEvents, Nat.zero_le]

/-- C7 counterexample: each entry point takes one optional timeout value,
not two; concretely, with timeout some 1, a connect completing at once and a
copy join needing 5 ticks, tcp::client races the acquisition against 1 and
then races the data-transfer phase against the same 1, which elapses — the
transfer phase is bounded by the very value that bounded the connect, not
only by a separately configured session timeout, which does not exist. -/
theorem c7_cex_single_timeout :
    (tcpClient (.ip (.v4 127 0 0 1)) 9 (some 1) ⟨0, .ok (), [], [], 5⟩).acquireRaceDur
      = some 1
    ∧ (tcpClient (.ip (.v4 127 0 0 1)) 9 (some 1) ⟨0, .ok (), [], [], 5⟩).sessionRaceDur
      = some 1
    ∧ (tcpClient (.ip (.v4 127 0 0 1)) 9 (some 1) ⟨0, .ok (), [], [], 5⟩).sessionTimedOut
      = true := by
  refine ⟨rfl, rfl, by decide⟩

/-- C7 amended: tcp::client and tcp::listen accept a single optional timeout
value; in every run that value is the duration the acquisition step is raced
against, and whenever the data-transfer phase runs it is raced against that
same value — the two bounds are the one configuration value, not two
independent ones. -/
theorem c7_one_shared_timeout_value
    (h : Host) (pn : Nat) (t : Option Nat) (w : TcpClientWorld)
    (w2 : TcpListenWorld) :
    (tcpClient h pn t w).acquireRaceDur = t
    ∧ (tcpClient h pn t w).sessionRaceDur
        = (if (tcpClient h pn t w).sessionRan then t else none)
    ∧ (tcpListen t w2).acquireRaceDur
        = (if (tcpListen t w2).acquireAttempts = 1 then t else none)
    ∧ (tcpListen t w2).sessionRaceDur
        = (if (tcpListen t w2).sessionRan then t else none) := by
  obtain ⟨ct, cr, rs, rr, jt⟩ := w
  obtain ⟨br, at2, ar, rs2, rr2, jt2⟩ := w2
  refine ⟨?_, ?_, ?_, ?_⟩ <;>
    cases t <;> cases cr <;> cases br <;> cases ar <;>
      simp [tcpClient, tcpListen] <;> split <;> simp

/-- C8 counterexample: tcp::client does not reject an unresolved hostname —
it formats the raw host argument into the string it hands to the transport
connect, whose ToSocketAddrs contract resolves hostnames via the platform
resolver inside the acquisition call; concretely, called with the hostname
example.com the acquisition performs name resolution of the host argument
and can still succeed, refuting the claim for the tcp client entry point. -/
theorem c8_cex_tcp_client_resolves :
    (tcpClient (.name "example.com") 80 none ⟨0, .ok (), [], [], 0⟩).resolvedName = true
    ∧ (tcpClient (.name "example.com") 80 none ⟨0, .ok (), [], [], 0⟩).result = .ok () := by
  exact ⟨rfl, rfl⟩

/-- C8 amended: udp::client accepts only a pre-resolved, family-correct
numeric address and performs no name resolution — a hostname argument is
rejected before any socket is bound — while tcp::client hands the raw host
string to the transport connect, which performs name resolution of the host
argument exactly when it is a hostname rather than a numeric literal. -/
theorem c8_resolution_amended
    (s : String) (pn pn2 : Nat) (t t2 : Option Nat) (w : UdpClientWorld)
    (h : Host) (w2 : TcpClientWorld) :
    (udpClient (.name s) pn t w).result = .error (.invalidRemoteAddr (.name s) pn)
    ∧ (udpClient (.name s) pn t w).bindAddr = none
    ∧ (tcpClient h pn2 t2 w2).resolvedName = h.isName := by
  obtain ⟨ct, cr, rs, rr, jt⟩ := w2
  refine ⟨rfl, rfl, ?_⟩
  cases t2 <;> cases cr <;> simp [tcpClient] <;> split <;> simp

/-- C9 counterexample: in the udp::client send task the result of send_to is
discarded (udp.rs line 57): with two reads of one byte each and the first
send_to failing, the task does not end at that send failure — it goes on to
read and send the second chunk — refuting that a mid-session send failure in
a directional task causes that task to simply end. -/
theorem c9_cex_send_failure_continues :
    udpSendLoop [.data [104], .data [105]] [false, true]
      = [([104], false), ([105], true)]
    ∧ udpSendLoop [.data [104], .data [105]] [false, true]
      ≠ [([104], false)] := by
  exact ⟨rfl, by decide⟩

/-- C9 amended: a mid-session I/O failure is never propagated as a failure
of the entry point — every entry point whose acquisition succeeded returns
Ok whatever I/O failures the worlds contain — and its local effect depends
on the call: in the TCP relays io::copy ends the directional task at a read
error and equally at a write error (nothing past a failed write is copied),
while in the UDP relays only a failed read or receive ends the task, and a
failed send_to or a failed local write or flush is discarded, the loop
continuing with the next chunk or datagram. -/
theorem c9_failure_handling_amended
    (h : Host) (pn : Nat) (t : Option Nat) (rs rr rs2 rr2 rs3 rs4 : List StdinRead)
    (jt jt2 jt3 jt4 : Nat) (peer : SocketAddr) (a : IpAddr)
    (evs evs2 : List RecvEvent) (sched : List Bool)
    (lp : Option SocketAddr) (pr : List RecvEvent) (tr : List LEvent)
    (rest reads : List StdinRead) (rest2 : List RecvEvent)
    (b : Nat) (bs p2 : List Nat) (src : SocketAddr) (ok : Bool) (oks : List Bool) :
    (tcpClient h pn t ⟨0, .ok (), rs, rr, jt⟩).result = .ok ()
    ∧ (tcpListen t ⟨.ok (), 0, .ok peer, rs2, rr2, jt2⟩).result = .ok ()
    ∧ (udpClient (.ip a) pn t ⟨.ok (), rs3, evs, jt3⟩).result = .ok ()
    ∧ (udpListen t ⟨.ok (), sched, evs2, rs4, jt4⟩).result = .ok ()
    ∧ copyChunks (.ioErr :: rest) = []
    ∧ copyLoop (.data (b :: bs) :: rest) (false :: oks) = []
    ∧ udpSendChunks (.ioErr :: rest) = []
    ∧ udpClientRecvWrites (.ioErr :: rest2) = []
    ∧ udpSendLoop (.ioErr :: rest) oks = []
    ∧ udpSendLoop (.data (b :: bs) :: rest) (ok :: oks)
        = ((b :: bs), ok) :: udpSendLoop rest oks
    ∧ udpRecvLoop (.ioErr :: rest2) oks = []
    ∧ udpRecvLoop (.dgram src p2 :: rest2) (ok :: oks)
        = (p2, ok) :: udpRecvLoop rest2 oks
    ∧ sendStep ⟨lp, pr, .ioErr :: reads, false, false, tr⟩
        = ⟨lp, pr, reads, false, true, tr⟩
    ∧ recvStep ⟨lp, .ioErr :: pr, reads, false, false, tr⟩
        = ⟨lp, pr, reads, true, false, tr⟩ := by
  refine ⟨?_, ?_, rfl, rfl, rfl, rfl, rfl, rfl, rfl, rfl, rfl, rfl, rfl, rfl⟩ <;>
    cases t <;> simp [tcpClient, tcpListen, Nat.zero_le]

/-- C10 counterexample: udp.rs line 25 formats host and port as host, colon,
port without adding brackets, so for the bare numeric IPv6 literal ::1 the
resulting string is not a valid socket address: udp::client returns the
invalid-remote-address error and binds nothing, instead of binding the IPv6
wildcard as the claim states for every numeric IPv6 literal. -/
theorem c10_cex_bare_v6_literal :
    (udpClient (.v6Bare [0, 0, 0, 0, 0, 0, 0, 1]) 80 none ⟨.ok (), [], [], 0⟩).result
      = .error (.invalidRemoteAddr (.v6Bare [0, 0, 0, 0, 0, 0, 0, 1]) 80)
    ∧ (udpClient (.v6Bare [0, 0, 0, 0, 0, 0, 0, 1]) 80 none ⟨.ok (), [], [], 0⟩).bindAddr
      = none := by
  exact ⟨rfl, rfl⟩

/-- C10 amended: udp::client returns the invalid-remote-address error,
before binding any socket or performing any network activity, whenever the
formatted host-colon-port string does not parse as a socket address — for a
hostname and equally for a bare, unbracketed numeric IPv6 literal — while a
numeric IPv4 literal makes it bind the IPv4 wildcard 0.0.0.0:0 and an IPv6
literal written in bracketed form makes it bind the IPv6 wildcard, matching
the remote address family. -/
theorem c10_udp_client_address_parse_amended
    (s : String) (pn pn2 pn3 pn4 : Nat) (t t2 t3 t4 : Option Nat)
    (w w2 w3 w4 : UdpClientWorld) (a b c d : Nat) (segs segs2 : List Nat) :
    (udpClient (.name s) pn t w).result = .error (.invalidRemoteAddr (.name s) pn)
    ∧ (udpClient (.name s) pn t w).bindAddr = none
    ∧ (udpClient (.name s) pn t w).sent = []
    ∧ (udpClient (.name s) pn t w).wrote = []
    ∧ (udpClient (.v6Bare segs2) pn4 t4 w4).result
        = .error (.invalidRemoteAddr (.v6Bare segs2) pn4)
    ∧ (udpClient (.v6Bare segs2) pn4 t4 w4).bindAddr = none
    ∧ (udpClient (.v6Bare segs2) pn4 t4 w4).sent = []
    ∧ (udpClient (.v6Bare segs2) pn4 t4 w4).wrote = []
    ∧ (udpClient (.ip (.v4 a b c d)) pn2 t2 w2).bindAddr = some "0.0.0.0:0"
    ∧ (udpClient (.ip (.v6 segs)) pn3 t3 w3).bindAddr = some "[::]:0" := by
  obtain ⟨br2, rs2, evs2, jt2⟩ := w2
  obtain ⟨br3, rs3, evs3, jt3⟩ := w3
  refine ⟨rfl, rfl, rfl, rfl, rfl, rfl, rfl, rfl, ?_, ?_⟩ <;>
    cases br2 <;> cases br3 <;>
    simp [udpClient, parseSocketAddr, SocketAddr.is_ipv4]

end RCat
